import Mathlib

/-!
Verification of the NoahTools HTTP request executor.

Shallow embedding of `src/client/nitromodules/noah-tools/cpp/HybridNoahToolsCpp.cpp`:
the URL parser `parseUrl` (modelling the ECMAScript regex
`^(https?)://([^:/]+)(?::(\d+))?(.*)$` with `std::regex_match` and `std::stoi`),
the transport configuration and request issuance of `performRequest` /
`executeRequest`, and the public entry points `nativeGet` / `nativePost`.

Exceptions thrown by the C++ code become values of `RequestError`; the
distinct `what()` strings of the original `std::runtime_error`s (and the
`std::out_of_range` thrown by `std::stoi`) map to distinct constructors.
Machine integers are modelled as `Int`/`Nat` with the explicit `int` range
bound where `std::stoi` checks it; the `double` timeout is modelled as `ℚ`
(every finite double is an exact rational, and the only operation the code
performs on it is `static_cast<long>`, i.e. truncation toward zero).
-/

/-- Decidable equality on `Except`, so that concrete runs of the embedded
functions can be checked by `decide`. -/
instance {ε α : Type} [DecidableEq ε] [DecidableEq α] : DecidableEq (Except ε α) := fun a b =>
  match a, b with
  | .ok x, .ok y =>
    if h : x = y then isTrue (by rw [h]) else isFalse fun he => h (Except.ok.inj he)
  | .error x, .error y =>
    if h : x = y then isTrue (by rw [h]) else isFalse fun he => h (Except.error.inj he)
  | .ok _, .error _ => isFalse fun he => Except.noConfusion he
  | .error _, .ok _ => isFalse fun he => Except.noConfusion he

namespace NoahTools

/-- The failure outcomes of the request pipeline.  `invalidUrl` is the
`std::runtime_error("Invalid URL format")` of `parseUrl`; `outOfRange` is the
`std::out_of_range` raised by `std::stoi` on a port too big for `int`;
`unsupportedMethod` is `std::runtime_error("Unsupported HTTP method")` of
`executeRequest`; `tlsUnavailable` is `std::runtime_error("HTTPS not supported")`
of `performRequest` in a build without `CPPHTTPLIB_OPENSSL_SUPPORT`. -/
inductive RequestError where
  | invalidUrl
  | outOfRange
  | unsupportedMethod
  | tlsUnavailable
  deriving DecidableEq, Repr

/-- `struct ParsedUrl { std::string scheme; std::string host; int port; std::string path; }`. -/
structure ParsedUrl where
  scheme : String
  host : String
  port : Int
  path : String
  deriving DecidableEq, Repr

/-- A character the regex class `[^:/]` accepts (the host run). -/
def hostChar (c : Char) : Bool := !(c == ':') && !(c == '/')

/-- An ECMAScript line terminator that fits in one byte: the `.` in the
path group `(.*)` matches any byte except these. -/
def lineTerm (c : Char) : Bool := c == '\n' || c == '\r'

/-- Greedy match of `^(https?)://` against the input: the scheme group and
the rest of the input.  (`https` is tried before backtracking to `http`;
a successful overall match can only use the alternative shown here because
the literal `://` must follow the scheme.) -/
def splitScheme (s : List Char) : Option (String × List Char) :=
  if s.take 8 = "https://".toList then some ("https", s.drop 8)
  else if s.take 7 = "http://".toList then some ("http", s.drop 7)
  else none

/-- Greedy match of the optional port group `(?::(\d+))?`: when the input
starts with `:` followed by at least one ASCII digit, the maximal digit run
is the port group and the rest is left for the path group; otherwise the
group does not participate and the whole input is left for the path group. -/
def splitPort (l : List Char) : Option (List Char) × List Char :=
  match l with
  | c :: r =>
    if c = ':' then
      if (r.takeWhile Char.isDigit).isEmpty then (none, c :: r)
      else (some (r.takeWhile Char.isDigit), r.drop (r.takeWhile Char.isDigit).length)
    else (none, c :: r)
  | [] => (none, [])

/-- The numeric value of a run of decimal digit characters. -/
def digitsToNat (ds : List Char) : Nat :=
  ds.foldl (fun n c => 10 * n + (c.toNat - '0'.toNat)) 0

/-- `INT_MAX` on every platform this code ships to (32-bit `int`). -/
def intMax : Nat := 2147483647

/-- `std::stoi` applied to the port group: a nonempty run of decimal digits,
no sign, no leading whitespace.  It yields the numeric value, or throws
`std::out_of_range` when the value does not fit in `int`. -/
def stoiDigits (ds : List Char) : Except RequestError Int :=
  if digitsToNat ds ≤ intMax then .ok (digitsToNat ds : Int) else .error .outOfRange

/-- The scheme-default port of `parseUrl`: `(result.scheme == "https") ? 443 : 80`. -/
def defaultPort (scheme : String) : Int := if scheme = "https" then 443 else 80

/-- `parseUrl`: `std::regex_match` of the whole input against
`^(https?)://([^:/]+)(?::(\d+))?(.*)$`, then field extraction.  The greedy
semantics of the regex are deterministic here: the host group takes the
maximal run of non-`:`/`/` characters (shortening it never rescues a failed
match, since the path group accepts everything except line terminators), the
port group participates exactly when a `:` followed by a digit comes next,
and the remainder is the path group, which matches only when it contains no
line terminator.  On a failed match the C++ throws "Invalid URL format";
otherwise the port is `std::stoi` of the port group when present (else the
scheme default) and an empty path is normalized to `"/"`. -/
def parseUrl (url : String) : Except RequestError ParsedUrl :=
  match splitScheme url.toList with
  | none => .error .invalidUrl
  | some (scheme, rest) =>
    if (rest.takeWhile hostChar).isEmpty then .error .invalidUrl
    else
      match splitPort (rest.dropWhile hostChar) with
      | (portDigits, pathChars) =>
        if pathChars.any lineTerm then .error .invalidUrl
        else
          match portDigits with
          | some ds =>
            (stoiDigits ds).map fun p =>
              ⟨scheme, String.mk (rest.takeWhile hostChar), p,
                if pathChars.isEmpty then "/" else String.mk pathChars⟩
          | none =>
            .ok ⟨scheme, String.mk (rest.takeWhile hostChar), defaultPort scheme,
              if pathChars.isEmpty then "/" else String.mk pathChars⟩

/-- The compile-target platform, selecting the branch of the preprocessor
conditionals `#ifdef __APPLE__` / `#elif defined(__ANDROID__)` / `#else`. -/
inductive Platform where
  | apple
  | android
  | other
  deriving DecidableEq, Repr

/-- Modelled from the spec: `getIOSCACertPath()` comes from
`CertPathHelper.hpp`, a file of this repository that is not under `src/`;
the spec says only that on the Apple platform family "the trusted root
certificate path is resolved via a platform-specific helper".  Its result is
therefore the parameter `iosCACertPath`, threaded through `performRequest`.
The Android and default branches follow `getCACertPath` in
`HybridNoahToolsCpp.cpp` verbatim. -/
def getCACertPath (platform : Platform) (iosCACertPath : String) : String :=
  match platform with
  | .apple => iosCACertPath
  | .android => "/system/etc/security/cacerts"
  | .other => ""

/-- `static_cast<long>` applied to a `double` (here an exact rational):
truncation toward zero. -/
def castToLong (q : ℚ) : Int := q.num.tdiv q.den

/-- The IEEE-754 double `1.5`, an exactly representable non-negative
timeout value, given here as the rational it denotes. -/
def threeHalves : ℚ := ⟨3, 2, by decide, by decide⟩

/-- The transport-level configuration applied to the `httplib` client before
the request is issued: which transport (`SSLClient` vs plain `Client`), the
constructor arguments (host, port), both `set_read_timeout` /
`set_write_timeout` calls (seconds and microseconds arguments), whether
`enable_server_certificate_verification` is passed `true`, and the CA
certificate directory passed to `set_ca_cert_path` when one is set. -/
structure TransportConfig where
  tls : Bool
  host : String
  port : Int
  readTimeoutSec : Int
  readTimeoutUsec : Int
  writeTimeoutSec : Int
  writeTimeoutUsec : Int
  verifyServerCert : Bool
  caCertDir : Option String
  deriving DecidableEq, Repr

/-- The single HTTP exchange handed to the transport by `executeRequest`:
the method, the path, the header list copied verbatim from the caller's map,
the body (`none` when the `Get` overload, which takes no body, is used) and
the content type (`"application/json"` passed by the `Post` overload). -/
structure IssuedRequest where
  method : String
  path : String
  headers : List (String × String)
  body : Option String
  contentType : Option String
  deriving DecidableEq, Repr

/-- A successful run of `performRequest` up to the transport boundary: the
configuration installed on the client, and the one request issued on it.
An `Except.error` result models a thrown exception, in which case no client
ever performs network I/O. -/
structure Outcome where
  config : TransportConfig
  request : IssuedRequest
  deriving DecidableEq, Repr

/-- `executeRequest` up to the transport boundary: copies the header map
verbatim, then issues `client.Post(path, headers, body, "application/json")`
for `"POST"`, `client.Get(path, headers)` for `"GET"`, and throws
`"Unsupported HTTP method"` for anything else before touching the client. -/
def executeRequest (path method body : String) (headers : List (String × String)) :
    Except RequestError IssuedRequest :=
  if method = "POST" then .ok ⟨method, path, headers, some body, some "application/json"⟩
  else if method = "GET" then .ok ⟨method, path, headers, none, none⟩
  else .error .unsupportedMethod

/-- `performRequest`: parse the URL; for `"https"` either build an
`SSLClient` with both timeouts, certificate verification enabled and (when
`getCACertPath` is nonempty) the CA certificate directory — or, in a build
without `CPPHTTPLIB_OPENSSL_SUPPORT` (`tlsSupport = false`), throw
`"HTTPS not supported"`; for any other successfully parsed scheme build a
plain `Client` with both timeouts.  Then run `executeRequest` on it. -/
def performRequest (tlsSupport : Bool) (platform : Platform) (iosCACertPath : String)
    (url method body : String) (headers : List (String × String)) (timeoutSeconds : ℚ) :
    Except RequestError Outcome :=
  match parseUrl url with
  | .error e => .error e
  | .ok parsed =>
    if parsed.scheme = "https" then
      if tlsSupport then
        let certPath := getCACertPath platform iosCACertPath
        let config : TransportConfig :=
          { tls := true
            host := parsed.host
            port := parsed.port
            readTimeoutSec := castToLong timeoutSeconds
            readTimeoutUsec := 0
            writeTimeoutSec := castToLong timeoutSeconds
            writeTimeoutUsec := 0
            verifyServerCert := true
            caCertDir := if certPath = "" then none else some certPath }
        (executeRequest parsed.path method body headers).map fun req => ⟨config, req⟩
      else .error .tlsUnavailable
    else
      let config : TransportConfig :=
        { tls := false
          host := parsed.host
          port := parsed.port
          readTimeoutSec := castToLong timeoutSeconds
          readTimeoutUsec := 0
          writeTimeoutSec := castToLong timeoutSeconds
          writeTimeoutUsec := 0
          verifyServerCert := false
          caCertDir := none }
      (executeRequest parsed.path method body headers).map fun req => ⟨config, req⟩

/-- `HybridNoahToolsCpp::nativePost`: the blocking body of the async lambda,
`performRequest(url, "POST", body, headers, timeoutSeconds)`. -/
def nativePost (tlsSupport : Bool) (platform : Platform) (iosCACertPath : String)
    (url body : String) (headers : List (String × String)) (timeoutSeconds : ℚ) :
    Except RequestError Outcome :=
  performRequest tlsSupport platform iosCACertPath url "POST" body headers timeoutSeconds

/-- `HybridNoahToolsCpp::nativeGet`: the blocking body of the async lambda,
`performRequest(url, "GET", "", headers, timeoutSeconds)`. -/
def nativeGet (tlsSupport : Bool) (platform : Platform) (iosCACertPath : String)
    (url : String) (headers : List (String × String)) (timeoutSeconds : ℚ) :
    Except RequestError Outcome :=
  performRequest tlsSupport platform iosCACertPath url "GET" "" headers timeoutSeconds

end NoahTools

namespace NoahTools

/-! ## Helper lemmas -/

/-- Splitting `takeWhile`/`dropWhile` at a known boundary: when every element
of `l₁` satisfies `p` and the first element of `l₂` (if any) does not, the
greedy scan takes exactly `l₁`. -/
lemma span_append {α : Type} (p : α → Bool) (l₁ l₂ : List α)
    (h₁ : ∀ a ∈ l₁, p a = true) (h₂ : ∀ a ∈ l₂.head?, p a = false) :
    (l₁ ++ l₂).takeWhile p = l₁ ∧ (l₁ ++ l₂).dropWhile p = l₂ := by
  induction l₁ with
  | nil =>
    cases l₂ with
    | nil => exact ⟨rfl, rfl⟩
    | cons a t =>
      have ha : p a = false := h₂ a (by simp)
      refine ⟨?_, ?_⟩
      · simp only [List.nil_append]
        exact List.takeWhile_cons_of_neg (by simp [ha])
      · simp only [List.nil_append]
        exact List.dropWhile_cons_of_neg (by simp [ha])
  | cons a l ih =>
    have ha : p a = true := h₁ a (by simp)
    have ih' := ih fun x hx => h₁ x (by simp [hx])
    refine ⟨?_, ?_⟩
    · simp only [List.cons_append]
      rw [List.takeWhile_cons_of_pos ha, ih'.1]
    · simp only [List.cons_append]
      rw [List.dropWhile_cons_of_pos ha, ih'.2]

/-- The scheme group on an input starting with `https://`. -/
lemma splitScheme_append_https (r : List Char) :
    splitScheme ("https://".toList ++ r) = some ("https", r) := by
  unfold splitScheme
  rw [List.take_left' (by rfl), if_pos rfl, List.drop_left' (by rfl)]

/-- The scheme group on an input starting with `http://` (the `https`
alternative cannot match: the fifth character would have to be `s`). -/
lemma splitScheme_append_http (r : List Char) :
    splitScheme ("http://".toList ++ r) = some ("http", r) := by
  unfold splitScheme
  have h8 : ("http://".toList ++ r).take 8 ≠ "https://".toList := by
    intro h
    have h5 := congrArg (List.take 5) h
    rw [List.take_take, show min 5 8 = 5 from rfl,
      List.take_append_of_le_length (by decide)] at h5
    exact absurd h5 (by decide)
  rw [if_neg h8, List.take_left' (by rfl), if_pos rfl, List.drop_left' (by rfl)]

/-- `std::stoi` succeeds on a digit run whose value fits in `int`. -/
lemma stoiDigits_ok {ds : List Char} (h : digitsToNat ds ≤ intMax) :
    stoiDigits ds = .ok (digitsToNat ds : Int) := by
  unfold stoiDigits
  rw [if_pos h]

/-- Inversion of a successful parse: the shape of every `ParsedUrl` that
`parseUrl` can return.  The path is the normalized path group, and the port
is either a `std::stoi` result (hence within `0 .. INT_MAX`) or one of the
scheme defaults. -/
lemma parseUrl_ok_inv {url : String} {r : ParsedUrl} (h : parseUrl url = .ok r) :
    r.path ≠ "" ∧ 0 ≤ r.port ∧ r.port ≤ (intMax : Int) := by
  unfold parseUrl at h
  split at h
  · exact absurd h (by simp)
  split at h
  · exact absurd h (by simp)
  split at h
  rename_i portDigits pathChars hsplit
  split at h
  · exact absurd h (by simp)
  have hpath : (if pathChars.isEmpty then "/" else String.mk pathChars) ≠ "" := by
    split
    · decide
    · rename_i hne
      intro hc
      have hnil : pathChars = [] := congrArg String.data hc
      simp [hnil] at hne
  cases portDigits with
  | none =>
    injection h with h2
    subst h2
    refine ⟨hpath, ?_, ?_⟩ <;> unfold defaultPort <;> split <;> norm_num [intMax]
  | some ds =>
    dsimp only at h
    cases hstoi : stoiDigits ds with
    | error e => rw [hstoi] at h; exact absurd h (by simp [Except.map])
    | ok p =>
      rw [hstoi] at h
      simp only [Except.map] at h
      injection h with h2
      subst h2
      have hb : 0 ≤ p ∧ p ≤ (intMax : Int) := by
        unfold stoiDigits at hstoi
        split at hstoi
        · rename_i hle
          have hp : (digitsToNat ds : Int) = p := by simpa using hstoi
          unfold intMax at hle ⊢
          omega
        · exact absurd hstoi (by simp)
      exact ⟨hpath, hb.1, hb.2⟩

/-- Inversion of a successful `executeRequest` run: the one issued request
carries the given method, path and headers, a JSON-typed body exactly when
the method is `POST`, and no body and no content type when it is `GET`. -/
lemma executeRequest_ok {path method body : String} {headers : List (String × String)}
    {req : IssuedRequest} (h : executeRequest path method body headers = .ok req) :
    req.method = method ∧ req.path = path ∧ req.headers = headers ∧
    (method = "POST" → req.body = some body ∧ req.contentType = some "application/json") ∧
    (method = "GET" → req.body = none ∧ req.contentType = none) := by
  unfold executeRequest at h
  split at h
  · rename_i hpost
    injection h with h2
    subst h2
    exact ⟨rfl, rfl, rfl, fun _ => ⟨rfl, rfl⟩,
      fun hg => absurd (hpost.symm.trans hg) (by decide)⟩
  split at h
  · rename_i hget
    injection h with h2
    subst h2
    exact ⟨rfl, rfl, rfl, fun hp => absurd (hget.symm.trans hp) (by decide),
      fun _ => ⟨rfl, rfl⟩⟩
  · exact absurd h (by simp)

/-- Inversion of a successful `performRequest` run: the URL parsed, exactly
one request was issued by `executeRequest` against the parsed path, the
client was built on the parsed host and port with both timeouts set to the
truncated timeout, and the transport matches the scheme — for `https` it is
the TLS client (possible only in a TLS build) with certificate verification
enabled and the platform CA path installed when nonempty. -/
lemma performRequest_ok_inv {tlsSupport : Bool} {platform : Platform} {iosCACertPath : String}
    {url method body : String} {headers : List (String × String)} {timeoutSeconds : ℚ}
    {outcome : Outcome}
    (h : performRequest tlsSupport platform iosCACertPath url method body headers timeoutSeconds
      = .ok outcome) :
    ∃ parsed req, parseUrl url = .ok parsed ∧
      executeRequest parsed.path method body headers = .ok req ∧
      outcome.request = req ∧
      outcome.config.host = parsed.host ∧
      outcome.config.port = parsed.port ∧
      outcome.config.readTimeoutSec = castToLong timeoutSeconds ∧
      outcome.config.readTimeoutUsec = 0 ∧
      outcome.config.writeTimeoutSec = castToLong timeoutSeconds ∧
      outcome.config.writeTimeoutUsec = 0 ∧
      (parsed.scheme = "https" →
        tlsSupport = true ∧ outcome.config.tls = true ∧
        outcome.config.verifyServerCert = true ∧
        outcome.config.caCertDir =
          (if getCACertPath platform iosCACertPath = "" then none
            else some (getCACertPath platform iosCACertPath))) ∧
      (parsed.scheme ≠ "https" → outcome.config.tls = false) := by
  unfold performRequest at h
  split at h
  · exact absurd h (by simp)
  rename_i parsed hparse
  split at h
  · rename_i hs
    split at h
    · rename_i htls
      cases he : executeRequest parsed.path method body headers with
      | error e => rw [he] at h; exact absurd h (by simp [Except.map])
      | ok req =>
        rw [he] at h
        simp only [Except.map] at h
        injection h with h2
        subst h2
        exact ⟨parsed, req, hparse, he, rfl, rfl, rfl, rfl, rfl, rfl, rfl,
          fun _ => ⟨htls, rfl, rfl, rfl⟩, fun hns => absurd hs hns⟩
    · exact absurd h (by simp)
  · rename_i hs
    cases he : executeRequest parsed.path method body headers with
    | error e => rw [he] at h; exact absurd h (by simp [Except.map])
    | ok req =>
      rw [he] at h
      simp only [Except.map] at h
      injection h with h2
      subst h2
      exact ⟨parsed, req, hparse, he, rfl, rfl, rfl, rfl, rfl, rfl, rfl,
        fun hcontra => absurd hcontra hs, fun _ => rfl⟩

/-- A path that is empty or starts with `/` cannot begin with a host
character. -/
lemma head_not_hostChar {path : String} (hpath : path = "" ∨ path.toList.head? = some '/') :
    ∀ a ∈ path.toList.head?, hostChar a = false := by
  intro a ha
  rcases hpath with he | hh
  · rw [he, show ("" : String).toList = [] from rfl] at ha
    simp at ha
  · rw [hh] at ha
    have h2 : '/' = a := by simpa using ha
    subst h2
    decide

/-- A path that is empty or starts with `/` cannot begin with a digit. -/
lemma head_not_digit {path : String} (hpath : path = "" ∨ path.toList.head? = some '/') :
    ∀ a ∈ path.toList.head?, Char.isDigit a = false := by
  intro a ha
  rcases hpath with he | hh
  · rw [he, show ("" : String).toList = [] from rfl] at ha
    simp at ha
  · rw [hh] at ha
    have h2 : '/' = a := by simpa using ha
    subst h2
    decide

/-- The path-group normalization of `parseUrl`, rephrased on the whole
string instead of its character list. -/
lemma normalizePath_eq (path : String) :
    (if path.toList.isEmpty = true then "/" else String.mk path.toList)
      = if path = "" then "/" else path := by
  by_cases hp : path = ""
  · subst hp
    rfl
  · have hne : ¬(path.toList.isEmpty = true) := by
      simp only [List.isEmpty_iff]
      exact fun hc => hp (String.ext hc)
    rw [if_neg hne, if_neg hp]
    rfl

/-- Core of the well-formed-input theorem, port group absent: when the
scheme group leaves `host ++ path` with a nonempty host of host characters
and a path that is empty or starts with `/` (no line terminators),
`parseUrl` returns the pieces with the scheme-default port. -/
lemma parseUrl_core_noport {url : String} (scheme host path : String)
    (hsplit : splitScheme url.toList = some (scheme, host.toList ++ path.toList))
    (hhost : host ≠ "") (hhostc : ∀ c ∈ host.toList, hostChar c = true)
    (hpath : path = "" ∨ path.toList.head? = some '/')
    (hplt : ∀ c ∈ path.toList, lineTerm c = false) :
    parseUrl url = .ok ⟨scheme, host, defaultPort scheme, if path = "" then "/" else path⟩ := by
  have hanyf : path.toList.any lineTerm = false := by
    rw [List.any_eq_false]
    intro c hc
    simp [hplt c hc]
  have hostne : host.toList ≠ [] := fun hc => hhost (String.ext hc)
  obtain ⟨htake, hdrop⟩ := span_append hostChar host.toList path.toList hhostc
    (head_not_hostChar hpath)
  have hsp : splitPort path.toList = (none, path.toList) := by
    rcases hpath with he | hh
    · rw [he, show ("" : String).toList = [] from rfl]
      rfl
    · rcases hl : path.toList with _ | ⟨c, t⟩
      · rfl
      · rw [hl] at hh
        have h2 : c = '/' := by simpa using hh
        subst h2
        unfold splitPort
        dsimp only
        rw [if_neg (by decide)]
  unfold parseUrl
  split
  · rename_i heq
    rw [hsplit] at heq
    simp at heq
  · rename_i scheme' rest' heq
    rw [hsplit] at heq
    injection heq with heq2
    injection heq2 with h1 h2
    subst h1
    subst h2
    rw [htake, hdrop]
    rw [if_neg (by simp only [List.isEmpty_iff]; exact hostne)]
    split
    rename_i pd pc heq3
    rw [hsp] at heq3
    injection heq3 with i1 i2
    subst i1
    subst i2
    rw [hanyf, if_neg (by simp)]
    dsimp only
    rw [normalizePath_eq]
    rfl

/-- Core of the well-formed-input theorem, port group present: when the
scheme group leaves `host ++ ":" ++ digits ++ path`, `parseUrl` returns the
pieces with the digit run's value (which fits in `int`) as the port. -/
lemma parseUrl_core_port {url : String} (scheme host : String) (ds : List Char) (path : String)
    (hsplit : splitScheme url.toList = some (scheme, host.toList ++ (':' :: (ds ++ path.toList))))
    (hds : ds ≠ []) (hdig : ∀ c ∈ ds, Char.isDigit c = true) (hmax : digitsToNat ds ≤ intMax)
    (hhost : host ≠ "") (hhostc : ∀ c ∈ host.toList, hostChar c = true)
    (hpath : path = "" ∨ path.toList.head? = some '/')
    (hplt : ∀ c ∈ path.toList, lineTerm c = false) :
    parseUrl url
      = .ok ⟨scheme, host, (digitsToNat ds : Int), if path = "" then "/" else path⟩ := by
  have hanyf : path.toList.any lineTerm = false := by
    rw [List.any_eq_false]
    intro c hc
    simp [hplt c hc]
  have hostne : host.toList ≠ [] := fun hc => hhost (String.ext hc)
  obtain ⟨htake, hdrop⟩ := span_append hostChar host.toList (':' :: (ds ++ path.toList)) hhostc
    (by
      intro a ha
      have h2 : ':' = a := by simpa using ha
      subst h2
      decide)
  have hsp : splitPort (':' :: (ds ++ path.toList)) = (some ds, path.toList) := by
    unfold splitPort
    dsimp only
    rw [if_pos rfl]
    obtain ⟨ht2, -⟩ := span_append Char.isDigit ds path.toList hdig (head_not_digit hpath)
    rw [ht2]
    rw [if_neg (by simp only [List.isEmpty_iff]; exact hds)]
    rw [List.drop_left]
  unfold parseUrl
  split
  · rename_i heq
    rw [hsplit] at heq
    simp at heq
  · rename_i scheme' rest' heq
    rw [hsplit] at heq
    injection heq with heq2
    injection heq2 with h1 h2
    subst h1
    subst h2
    rw [htake, hdrop]
    rw [if_neg (by simp only [List.isEmpty_iff]; exact hostne)]
    split
    rename_i pd pc heq3
    rw [hsp] at heq3
    injection heq3 with i1 i2
    subst i1
    subst i2
    rw [hanyf, if_neg (by simp)]
    dsimp only
    rw [stoiDigits_ok hmax]
    simp only [Except.map]
    rw [normalizePath_eq]
    rfl

/-! ## The claims -/

/-- C1: for every execution of a request whose parsed scheme is `"https"`
(in a TLS build), the transport is the TLS client with server certificate
verification enabled before the request is issued; no successful execution
path leaves it disabled.  On the mobile platforms (which require explicit
configuration) a trusted root certificate bundle path is installed — on
Android the fixed system path, on Apple the helper-resolved path (nonempty
by assumption, see `getCACertPath`). -/
theorem https_verification_enabled (tlsSupport : Bool) (platform : Platform)
    (iosCACertPath : String) (url method body : String) (headers : List (String × String))
    (timeoutSeconds : ℚ) (r : ParsedUrl) (outcome : Outcome)
    (hp : parseUrl url = .ok r) (hs : r.scheme = "https") (hios : iosCACertPath ≠ "")
    (h : performRequest tlsSupport platform iosCACertPath url method body headers timeoutSeconds
      = .ok outcome) :
    outcome.config.tls = true ∧ outcome.config.verifyServerCert = true ∧
    ((platform = .apple ∨ platform = .android) → outcome.config.caCertDir ≠ none) := by
  obtain ⟨parsed, req, hparse, -, -, -, -, -, -, -, -, hhttps, -⟩ := performRequest_ok_inv h
  rw [hp] at hparse
  injection hparse with hpr
  subst hpr
  obtain ⟨-, htls2, hverify, hca⟩ := hhttps hs
  refine ⟨htls2, hverify, fun hplat => ?_⟩
  rw [hca]
  rcases hplat with hpa | hpa <;> subst hpa
  · simp only [getCACertPath]
    rw [if_neg hios]
    simp
  · simp only [getCACertPath]
    rw [if_neg (by decide)]
    simp

/-- C1 witness: a concrete Android TLS run, with the verification flag on
and the system CA directory installed. -/
theorem https_verification_enabled_witness :
    (true : Bool) = true ∧ (true : Bool) = true ∧
    ((Platform.android = Platform.apple ∨ Platform.android = Platform.android) →
      (some "/system/etc/security/cacerts" : Option String) ≠ none) :=
  https_verification_enabled true .android "ca" "https://example.com" "GET" "" [] 5
    ⟨"https", "example.com", 443, "/"⟩
    ⟨⟨true, "example.com", 443, 5, 0, 5, 0, true, some "/system/etc/security/cacerts"⟩,
      ⟨"GET", "/", [], none, none⟩⟩
    (by decide) rfl (by decide) (by decide)

/-- C2: in a build without TLS support, every request whose URL parses with
scheme `"https"` fails with `tlsUnavailable`: no outcome is produced, hence
no transport is configured and no network I/O happens, and in particular
execution never falls through to the plaintext client. -/
theorem https_without_tls_fails (platform : Platform) (iosCACertPath : String)
    (url method body : String) (headers : List (String × String)) (timeoutSeconds : ℚ)
    (r : ParsedUrl) (hp : parseUrl url = .ok r) (hs : r.scheme = "https") :
    performRequest false platform iosCACertPath url method body headers timeoutSeconds
      = .error .tlsUnavailable := by
  unfold performRequest
  split
  · rename_i e heq
    exact absurd (hp.symm.trans heq) (by simp)
  · rename_i parsed heq
    have hpr : parsed = r := (Except.ok.inj (hp.symm.trans heq)).symm
    subst hpr
    rw [if_pos hs]
    rfl

/-- C2 witness: a concrete https GET in a TLS-less build. -/
theorem https_without_tls_fails_witness :
    performRequest false .other "" "https://example.com" "GET" "" [] 5
      = .error .tlsUnavailable :=
  https_without_tls_fails .other "" "https://example.com" "GET" "" [] 5
    ⟨"https", "example.com", 443, "/"⟩ (by decide) rfl

/-- C3: for every well-formed input of the shape `scheme://host[:port][/path]`
— scheme exactly `http` or `https`, a nonempty host over non-`:`/`/`
characters, an optional nonempty decimal port whose value fits in `int`,
and a path that is absent or begins with `/` (and, being a URL, contains no
raw line-terminator bytes) — `parseUrl` succeeds and returns exactly the
supplied scheme, host and path (an absent path normalized to `"/"`), the
supplied port when present, and otherwise 443 for https and 80 for http.
The spec's two worked examples are the instances with scheme `http`, host
`example.com`, no port and no path, and with scheme `https`, host
`example.com`, port digits `8443` and path `/a/b` (the latter is checked
concretely in the witness). -/
theorem parseUrl_wellFormed (scheme host : String) (ports : Option (List Char)) (path : String)
    (hscheme : scheme = "http" ∨ scheme = "https")
    (hhost : host ≠ "")
    (hhostc : ∀ c ∈ host.toList, hostChar c = true)
    (hports : ∀ ds ∈ ports, ds ≠ [] ∧ (∀ c ∈ ds, Char.isDigit c = true) ∧
      digitsToNat ds ≤ intMax)
    (hpath : path = "" ∨ path.toList.head? = some '/')
    (hplt : ∀ c ∈ path.toList, lineTerm c = false) :
    parseUrl (scheme ++ "://" ++ host ++
        (match ports with | none => "" | some ds => String.mk (':' :: ds)) ++ path) =
      .ok ⟨scheme, host,
        (match ports with
          | none => if scheme = "https" then 443 else 80
          | some ds => (digitsToNat ds : Int)),
        if path = "" then "/" else path⟩ := by
  have e1 : "http".data = ['h', 't', 't', 'p'] := rfl
  have e2 : "https".data = ['h', 't', 't', 'p', 's'] := rfl
  have e3 : "://".data = [':', '/', '/'] := rfl
  have e4 : "http://".data = ['h', 't', 't', 'p', ':', '/', '/'] := rfl
  have e5 : "https://".data = ['h', 't', 't', 'p', 's', ':', '/', '/'] := rfl
  have e0 : "".data = ([] : List Char) := rfl
  rcases ports with _ | ds
  · rcases hscheme with rfl | rfl
    · refine parseUrl_core_noport "http" host path ?_ hhost hhostc hpath hplt
      have hdata : ("http" ++ "://" ++ host ++ "" ++ path).toList
          = "http://".toList ++ (host.toList ++ path.toList) := by
        simp [String.toList, String.data_append, e1, e3, e4, e0]
      rw [hdata, splitScheme_append_http]
    · refine parseUrl_core_noport "https" host path ?_ hhost hhostc hpath hplt
      have hdata : ("https" ++ "://" ++ host ++ "" ++ path).toList
          = "https://".toList ++ (host.toList ++ path.toList) := by
        simp [String.toList, String.data_append, e2, e3, e5, e0]
      rw [hdata, splitScheme_append_https]
  · obtain ⟨hds, hdig, hmax⟩ := hports ds rfl
    rcases hscheme with rfl | rfl
    · refine parseUrl_core_port "http" host ds path ?_ hds hdig hmax hhost hhostc hpath hplt
      have hdata : ("http" ++ "://" ++ host ++ String.mk (':' :: ds) ++ path).toList
          = "http://".toList ++ (host.toList ++ (':' :: (ds ++ path.toList))) := by
        simp [String.toList, String.data_append, e1, e3, e4]
      rw [hdata, splitScheme_append_http]
    · refine parseUrl_core_port "https" host ds path ?_ hds hdig hmax hhost hhostc hpath hplt
      have hdata : ("https" ++ "://" ++ host ++ String.mk (':' :: ds) ++ path).toList
          = "https://".toList ++ (host.toList ++ (':' :: (ds ++ path.toList))) := by
        simp [String.toList, String.data_append, e2, e3, e5]
      rw [hdata, splitScheme_append_https]

/-- C3 witness: the spec's second worked example,
`parse("https://example.com:8443/a/b")`. -/
theorem parseUrl_wellFormed_witness :
    parseUrl "https://example.com:8443/a/b"
      = .ok ⟨"https", "example.com", 8443, "/a/b"⟩ := by
  have h := parseUrl_wellFormed "https" "example.com" (some ['8', '4', '4', '3']) "/a/b"
    (Or.inr rfl) (by decide) (by decide)
    (by
      intro ds hds
      have h2 : ['8', '4', '4', '3'] = ds := by simpa using hds
      subst h2
      exact ⟨by decide, by decide, by decide⟩)
    (Or.inr rfl) (by decide)
  exact h

/-- C4 counterexample: the claim bounds the port by 65535, but `parseUrl`
accepts any explicit port that `std::stoi` can convert — on
`"http://host:70000"` it returns port 70000, which is not ≤ 65535. -/
theorem parseUrl_port_range_counterexample :
    parseUrl "http://host:70000" = .ok ⟨"http", "host", 70000, "/"⟩ ∧
    ¬ (ParsedUrl.mk "http" "host" 70000 "/").port ≤ 65535 := by decide

/-- C4 (amended): every `ParsedUrl` that `parseUrl` returns has a concrete
port — the explicitly supplied one or the scheme default 443/80 — lying in
`std::stoi`'s `int` range `0 .. 2147483647` (not necessarily in `1 .. 65535`:
explicit ports such as 0 or 70000 are accepted), and a path that is never
the empty string. -/
theorem parseUrl_ok_port_path_invariant (url : String) (r : ParsedUrl)
    (h : parseUrl url = .ok r) :
    r.path ≠ "" ∧ 0 ≤ r.port ∧ r.port ≤ 2147483647 := by
  have h2 := parseUrl_ok_inv h
  refine ⟨h2.1, h2.2.1, ?_⟩
  have h3 := h2.2.2
  norm_num [intMax] at h3
  exact h3

/-- C4 witness: the invariant evaluated on a concrete successful parse. -/
theorem parseUrl_ok_port_path_invariant_witness :
    ("/" : String) ≠ "" ∧ (0 : Int) ≤ 80 ∧ (80 : Int) ≤ 2147483647 :=
  parseUrl_ok_port_path_invariant "http://example.com" ⟨"http", "example.com", 80, "/"⟩
    (by decide)

/-- C5 counterexample: a URL with a non-numeric port does not fail with
`invalidUrl` — the optional port group simply does not participate, and the
`:abc` text is folded into the path group, so `"http://host:abc"` parses
successfully. -/
theorem nonNumericPort_counterexample :
    parseUrl "http://host:abc" = .ok ⟨"http", "host", 80, ":abc"⟩ ∧
    parseUrl "http://host:abc" ≠ .error .invalidUrl := by decide

/-- C5 (amended): an input with a missing scheme (its first characters are
not `http://` or `https://`) or a missing host (an empty host run right
after the scheme), including the literal `"not a url"`, fails with
`invalidUrl` — and, the result being an `Except`, a failure never carries a
partially populated `ParsedUrl`.  (A non-numeric port, by contrast, does
not fail: see the counterexample.) -/
theorem malformed_url_invalid :
    (∀ url : String, url.toList.take 8 ≠ "https://".toList →
      url.toList.take 7 ≠ "http://".toList → parseUrl url = .error .invalidUrl) ∧
    (∀ rest : String, rest.toList.takeWhile hostChar = [] →
      parseUrl ("http://" ++ rest) = .error .invalidUrl) ∧
    (∀ rest : String, rest.toList.takeWhile hostChar = [] →
      parseUrl ("https://" ++ rest) = .error .invalidUrl) ∧
    parseUrl "not a url" = .error .invalidUrl := by
  refine ⟨?_, ?_, ?_, by decide⟩
  · intro url h8 h7
    unfold parseUrl splitScheme
    rw [if_neg h8, if_neg h7]
  · intro rest hempty
    have hsp : splitScheme ("http://" ++ rest).toList = some ("http", rest.toList) := by
      have hd : ("http://" ++ rest).toList = "http://".toList ++ rest.toList :=
        String.data_append "http://" rest
      rw [hd, splitScheme_append_http]
    unfold parseUrl
    split
    · rfl
    · rename_i scheme' rest' heq
      rw [hsp] at heq
      injection heq with heq2
      injection heq2 with h1 h2
      subst h1
      subst h2
      rw [if_pos (by simp only [List.isEmpty_iff]; exact hempty)]
  · intro rest hempty
    have hsp : splitScheme ("https://" ++ rest).toList = some ("https", rest.toList) := by
      have hd : ("https://" ++ rest).toList = "https://".toList ++ rest.toList :=
        String.data_append "https://" rest
      rw [hd, splitScheme_append_https]
    unfold parseUrl
    split
    · rfl
    · rename_i scheme' rest' heq
      rw [hsp] at heq
      injection heq with heq2
      injection heq2 with h1 h2
      subst h1
      subst h2
      rw [if_pos (by simp only [List.isEmpty_iff]; exact hempty)]

/-- C5 witness: the missing-scheme case on `"ftp://x"` and the missing-host
case on `"http://"` (empty remainder). -/
theorem malformed_url_invalid_witness :
    parseUrl "ftp://x" = .error .invalidUrl ∧
    parseUrl ("http://" ++ "") = .error .invalidUrl :=
  ⟨malformed_url_invalid.1 "ftp://x" (by decide) (by decide),
    malformed_url_invalid.2.1 "" (by decide)⟩

/-- C6 counterexample: at the non-negative real timeout 1.5 s, the
configured read timeout is `static_cast<long>(1.5) = 1` second (with a zero
microsecond component) on both the read and write side — not the
caller-supplied value, since `(1 : ℚ) ≠ 3/2`. -/
theorem timeout_truncation_counterexample :
    threeHalves = 3 / 2 ∧ 0 ≤ threeHalves ∧
    (performRequest false .other "" "http://example.com" "GET" "" [] threeHalves).map
        (fun o => (o.config.readTimeoutSec, o.config.readTimeoutUsec,
          o.config.writeTimeoutSec, o.config.writeTimeoutUsec)) = .ok (1, 0, 1, 0) ∧
    (1 : ℚ) ≠ threeHalves := by
  refine ⟨?_, by decide, by decide, by decide⟩
  rw [show (3 : ℚ) / 2 = Rat.divInt 3 2 by norm_num [Rat.divInt_eq_div]]
  rfl

/-- C6 (amended): for every executed request, the transport's read and
write timeouts are both set to the same value — `timeoutSeconds` truncated
toward zero to a whole number of seconds (`castToLong`), with the
microseconds argument 0 — which equals the caller-supplied value exactly
when `timeoutSeconds` is an integer. -/
theorem timeout_config (tlsSupport : Bool) (platform : Platform) (iosCACertPath : String)
    (url method body : String) (headers : List (String × String)) (timeoutSeconds : ℚ)
    (outcome : Outcome)
    (h : performRequest tlsSupport platform iosCACertPath url method body headers timeoutSeconds
      = .ok outcome) :
    outcome.config.readTimeoutSec = castToLong timeoutSeconds ∧
    outcome.config.readTimeoutUsec = 0 ∧
    outcome.config.writeTimeoutSec = castToLong timeoutSeconds ∧
    outcome.config.writeTimeoutUsec = 0 ∧
    (∀ k : ℤ, timeoutSeconds = (k : ℚ) →
      (outcome.config.readTimeoutSec : ℚ) = timeoutSeconds) := by
  obtain ⟨-, -, -, -, -, -, -, hrs, hru, hws, hwu, -, -⟩ := performRequest_ok_inv h
  refine ⟨hrs, hru, hws, hwu, fun k hk => ?_⟩
  rw [hrs, hk]
  simp [castToLong]

/-- C6 witness: a concrete run at the integral timeout 5 s, where both
configured timeouts are `castToLong 5 = 5`. -/
theorem timeout_config_witness :
    (5 : ℤ) = castToLong 5 ∧ (0 : ℤ) = 0 := by
  have h := timeout_config false .other "" "http://example.com" "GET" "" [] 5
    ⟨⟨false, "example.com", 80, 5, 0, 5, 0, false, none⟩, ⟨"GET", "/", [], none, none⟩⟩
    (by decide)
  exact ⟨h.1, h.2.1⟩

/-- C7: every successful execution issues exactly one request (the single
`IssuedRequest` of the outcome) of the given method to the parsed path with
all supplied headers attached verbatim; for `POST` the content type is
`"application/json"` and the body bytes are passed unmodified, and for
`GET` no body (and no content type) is sent. -/
theorem request_issuance (tlsSupport : Bool) (platform : Platform) (iosCACertPath : String)
    (url method body : String) (headers : List (String × String)) (timeoutSeconds : ℚ)
    (r : ParsedUrl) (outcome : Outcome)
    (hp : parseUrl url = .ok r)
    (h : performRequest tlsSupport platform iosCACertPath url method body headers timeoutSeconds
      = .ok outcome) :
    outcome.request.method = method ∧
    outcome.request.path = r.path ∧
    outcome.request.headers = headers ∧
    (method = "POST" → outcome.request.body = some body ∧
      outcome.request.contentType = some "application/json") ∧
    (method = "GET" → outcome.request.body = none ∧ outcome.request.contentType = none) := by
  obtain ⟨parsed, req, hparse, hexec, hreq, -, -, -, -, -, -, -, -⟩ := performRequest_ok_inv h
  rw [hp] at hparse
  injection hparse with hpr
  subst hpr
  obtain ⟨hm, hpa, hh, hpost, hget⟩ := executeRequest_ok hexec
  rw [hreq]
  exact ⟨hm, hpa, hh, hpost, hget⟩

/-- C7 witness: a concrete POST carrying a body, a header and the JSON
content type. -/
theorem request_issuance_witness :
    ("POST" : String) = "POST" ∧ ("/a" : String) = "/a" ∧
    ([("X", "1")] : List (String × String)) = [("X", "1")] ∧
    (("POST" : String) = "POST" → (some "b" : Option String) = some "b" ∧
      (some "application/json" : Option String) = some "application/json") ∧
    (("POST" : String) = "GET" → (some "b" : Option String) = none ∧
      (some "application/json" : Option String) = none) :=
  request_issuance false .other "" "http://example.com/a" "POST" "b" [("X", "1")] 5
    ⟨"http", "example.com", 80, "/a"⟩
    ⟨⟨false, "example.com", 80, 5, 0, 5, 0, false, none⟩,
      ⟨"POST", "/a", [("X", "1")], some "b", some "application/json"⟩⟩
    (by decide) (by decide)

/-- C8 counterexample: with the malformed URL `"not a url"` and the
non-GET/POST method `"PUT"`, execution fails with `invalidUrl` — the URL is
parsed before the method is examined — not with `unsupportedMethod` as the
claim states for every request with such a method. -/
theorem unsupported_method_counterexample :
    performRequest true .other "" "not a url" "PUT" "" [] 5 = .error .invalidUrl ∧
    RequestError.invalidUrl ≠ RequestError.unsupportedMethod := by decide

/-- C8 (amended): for every request whose URL parses successfully and whose
scheme, when it is `https`, has TLS support compiled in, a method string
that is neither `"GET"` nor `"POST"` makes execution fail with
`unsupportedMethod`; no outcome is produced, so no request is issued and no
network I/O is attempted.  (With a malformed URL the failure is `invalidUrl`
instead, and with https in a TLS-less build it is `tlsUnavailable`.) -/
theorem unsupported_method_fails (tlsSupport : Bool) (platform : Platform)
    (iosCACertPath : String) (url method body : String) (headers : List (String × String))
    (timeoutSeconds : ℚ) (r : ParsedUrl)
    (hp : parseUrl url = .ok r) (htls : r.scheme = "https" → tlsSupport = true)
    (hm1 : method ≠ "GET") (hm2 : method ≠ "POST") :
    performRequest tlsSupport platform iosCACertPath url method body headers timeoutSeconds
      = .error .unsupportedMethod := by
  have hex : executeRequest r.path method body headers = .error .unsupportedMethod := by
    unfold executeRequest
    rw [if_neg hm2, if_neg hm1]
  unfold performRequest
  split
  · rename_i e heq
    exact absurd (hp.symm.trans heq) (by simp)
  · rename_i parsed heq
    have hpr : parsed = r := (Except.ok.inj (hp.symm.trans heq)).symm
    subst hpr
    by_cases hs : parsed.scheme = "https"
    · rw [if_pos hs, if_pos (htls hs), hex]
      rfl
    · rw [if_neg hs, hex]
      rfl

/-- C8 witness: a concrete PUT against a valid http URL. -/
theorem unsupported_method_fails_witness :
    performRequest true .other "" "http://example.com" "PUT" "" [] 5
      = .error .unsupportedMethod :=
  unsupported_method_fails true .other "" "http://example.com" "PUT" "" [] 5
    ⟨"http", "example.com", 80, "/"⟩ (by decide) (fun _ => rfl) (by decide) (by decide)

/-- C9: on the grammar-matching input `"http://host:99999999999"`, whose
11-digit port run exceeds `INT_MAX`, `parseUrl` terminates with the
out-of-range failure of `std::stoi` (`std::out_of_range`) — it neither
returns a `ParsedUrl` nor fails with the `invalidUrl` error. -/
theorem parseUrl_port_overflow :
    parseUrl "http://host:99999999999" = .error .outOfRange ∧
    RequestError.outOfRange ≠ RequestError.invalidUrl := by decide

/-- C10 counterexample: on the claim's example `"http://host?q=1"` the
parse does succeed, but not as the claim describes — `?` is a host
character for the regex, so the host group absorbs `?q=1`, the host is
`"host?q=1"`, and the path is `"/"`, not `"?q=1"`. -/
theorem query_without_port_counterexample :
    parseUrl "http://host?q=1" = .ok ⟨"http", "host?q=1", 80, "/"⟩ ∧
    (ParsedUrl.mk "http" "host?q=1" 80 "/").path ≠ "?q=1" := by decide

/-- C10 (amended): some inputs accepted by the parser do yield a non-empty
path that does not begin with `/`, used verbatim as the request path — e.g.
`"http://host:80?q=1"`, where the port group stops at `?` and the path
group is `"?q=1"`; the claim's own example `"http://host?q=1"` is not one
of them (see the counterexample: there the host absorbs the query). -/
theorem query_path_verbatim :
    parseUrl "http://host:80?q=1" = .ok ⟨"http", "host", 80, "?q=1"⟩ ∧
    ("?q=1" : String).toList.head? ≠ some '/' ∧
    (performRequest false .other "" "http://host:80?q=1" "GET" "" [] 5).map
      (fun o => o.request.path) = .ok "?q=1" := by decide

end NoahTools
